import Mathlib

/-!
Shallow embedding of src/main.py, a FastAPI audio-transcription service.

The source has four pieces of logic:
- a process-wide dictionary mapping model identifiers to optionally loaded
  model handles (the global dict named models, keys "base" and "large");
- load_model_with_retry: a for-loop of up to max_retries load attempts with
  exponential backoff (sleep of 2 ^ attempt seconds after a failing attempt
  that is not the last);
- get_model: get-or-load caching over the dictionary;
- process_audio: request validation (identifier membership, file presence,
  extension allow-list), model acquisition, persistence of the upload bytes
  to a NamedTemporaryFile with delete set to False, the transcribe call, and
  scratch-file cleanup (os.unlink in-line on success, and in the except
  block guarded by a check that the temp_file local exists).

The async handlers run one request at a time from the point of view of the
properties below, so they are embedded as pure state-passing functions.
External effects (whisper.load_model, the filesystem writes, the transcribe
call) are embedded as an environment of Except-valued outcomes, and the
embedding returns an execution trace recording the registry, the number of
loader invocations, whether the scratch file was created, whether it still
exists when the handler returns, and how many unlink calls were made.
Model handles, upload contents and transcription segments are opaque type
parameters M, C and S.
-/

/-- A registry is the global dict from identifier strings to an optional
loaded handle, kept as an association list to preserve dict insertion
order (Python dicts preserve it, and the status route iterates it). -/
abbrev Registry (M : Type) := List (String × Option M)

/-- The initial value of the global models dict in src/main.py:
both identifiers present, neither loaded. -/
def models_init (M : Type) : Registry M := [("base", none), ("large", none)]

/-- Membership test, embedding the Python expression (model_size in models). -/
def dictContains {M : Type} (r : Registry M) (k : String) : Bool :=
  r.any (fun p => p.1 == k)

/-- Lookup, embedding models[model_size]; the outer none is a KeyError. -/
def dictGet {M : Type} (r : Registry M) (k : String) : Option (Option M) :=
  match r.find? (fun p => p.1 == k) with
  | some p => some p.2
  | none => none

/-- Assignment models[k] = v for a key already present: Python replaces the
value in place, keeping the key position.  The source only ever assigns keys
that are present (get_model is reached only after the membership check, and
a lookup on an absent key would raise KeyError before any assignment). -/
def dictSet {M : Type} (r : Registry M) (k : String) (v : Option M) : Registry M :=
  r.map (fun p => if p.1 == k then (p.1, v) else p)

/-- Outcome of load_model_with_retry.  fellThrough embeds the Python
behaviour of returning None when the for-loop body never runs, which
happens exactly when max_retries = 0. -/
inductive LoadResult (M : Type) where
  | ok (m : M)
  | failed (e : String)
  | fellThrough
  deriving DecidableEq, Repr

/-- Trace of one run of load_model_with_retry: its outcome, how many times
the loader (whisper.load_model) was invoked, and the sleep durations in
seconds, in order. -/
structure LoadTrace (M : Type) where
  result : LoadResult M
  attempts : Nat
  waits : List Nat
  deriving DecidableEq, Repr

/-- The for-loop of load_model_with_retry, starting at iteration attempt
with fuel = max_retries - attempt iterations left.  The loader argument
gives the outcome of whisper.load_model on each 0-indexed attempt.  The
Python guard (attempt < max_retries - 1), deciding between sleeping
2 ^ attempt seconds and re-raising the error, is exactly (0 < fuel - 1),
i.e. the fuel pattern r + 2 below. -/
def loadLoop {M : Type} (loader : Nat → Except String M) :
    Nat → Nat → LoadTrace M
  | _, 0 => { result := .fellThrough, attempts := 0, waits := [] }
  | attempt, 1 =>
    match loader attempt with
    | .ok m => { result := .ok m, attempts := 1, waits := [] }
    | .error e => { result := .failed e, attempts := 1, waits := [] }
  | attempt, r + 2 =>
    match loader attempt with
    | .ok m => { result := .ok m, attempts := 1, waits := [] }
    | .error _ =>
      let t := loadLoop loader (attempt + 1) (r + 1)
      { result := t.result, attempts := t.attempts + 1, waits := 2 ^ attempt :: t.waits }

/-- load_model_with_retry(model_size, max_retries): runs the loop from
attempt 0 with max_retries iterations available.  The default value of
max_retries in the source is 3. -/
def load_model_with_retry {M : Type} (loader : Nat → Except String M)
    (max_retries : Nat) : LoadTrace M :=
  loadLoop loader 0 max_retries

/-- What get_model hands back to its caller.  keyErr embeds the KeyError of
models[model_size] on an absent key; noneModel embeds the (dead, given
max_retries = 3) path where load_model_with_retry returns None and that
None is stored and returned. -/
inductive GetOut (M : Type) where
  | ok (m : M)
  | raised (e : String)
  | keyErr
  | noneModel
  deriving DecidableEq, Repr

/-- Trace of one get_model call: outcome, the registry after the call, and
the number of loader invocations it performed. -/
structure GetTrace (M : Type) where
  out : GetOut M
  registry : Registry M
  loadCalls : Nat
  deriving DecidableEq, Repr

/-- get_model(model_size): if models[model_size] is None, run
load_model_with_retry with the default max_retries = 3 and store the result;
then return models[model_size].  An exception from the loader propagates
before any assignment, leaving the registry untouched. -/
def get_model {M : Type} (loader : Nat → Except String M) (models : Registry M)
    (model_size : String) : GetTrace M :=
  match dictGet models model_size with
  | none => { out := .keyErr, registry := models, loadCalls := 0 }
  | some (some m) => { out := .ok m, registry := models, loadCalls := 0 }
  | some none =>
    let t := load_model_with_retry loader 3
    match t.result with
    | .ok m =>
      { out := .ok m, registry := dictSet models model_size (some m),
        loadCalls := t.attempts }
    | .failed e =>
      { out := .raised e, registry := models, loadCalls := t.attempts }
    | .fellThrough =>
      { out := .noneModel, registry := dictSet models model_size none,
        loadCalls := t.attempts }

/-- Rightmost index of a character in a list, or none; embeds str.rfind. -/
def rIndexOf (cs : List Char) (c : Char) : Option Nat :=
  cs.enum.foldl (fun acc p => if p.2 == c then some p.1 else acc) none

/-- The rfind result as Python returns it: -1 when absent. -/
def rfindIdx (cs : List Char) (c : Char) : Int :=
  match rIndexOf cs c with
  | some i => (i : Int)
  | none => -1

/-- The extension component of os.path.splitext(p) on a POSIX system: the
suffix starting at the last dot, provided that dot lies strictly after the
last path separator and at least one character of the basename before it is
not a dot (so a leading-dot name such as .bashrc has no extension). -/
def splitextExt (p : String) : String :=
  let cs := p.data
  let sepIndex := rfindIdx cs '/'
  let dotIndex := rfindIdx cs '.'
  if sepIndex < dotIndex then
    let filenameIndex := (sepIndex + 1).toNat
    if ((cs.drop filenameIndex).take (dotIndex.toNat - filenameIndex)).any
        (fun c => c != '.') then
      String.mk (cs.drop dotIndex.toNat)
    else ""
  else ""

/-- The str.lower call on the extension, restricted to ASCII case mapping
(Python str.lower is full Unicode; the allow-list entries are ASCII, so on
the characters that can ever match, the two agree). -/
def lowerStr (s : String) : String := String.mk (s.data.map Char.toLower)

/-- The allow-list of upload extensions.  The source builds it as a Python
set literal; the response detail joins it in set-iteration order, which is
arbitrary per process, fixed here to the literal order. -/
def allowed_extensions : List String := [".mp3", ".wav", ".m4a"]

/-- An uploaded file: a client-supplied filename and opaque byte content. -/
structure UploadFile (C : Type) where
  filename : String
  content : C
  deriving DecidableEq, Repr

/-- What the transcribe call produces when it succeeds: the result dict has
a text entry and a segments entry (plus further entries the handler never
reads), embedded as a text string and an opaque segment list. -/
structure TranscribeResult (S : Type) where
  text : String
  segments : List S
  deriving DecidableEq, Repr

/-- The per-request outcomes of the external effects process_audio
performs after validation: the loader outcomes per attempt, whether
tempfile.NamedTemporaryFile succeeds, whether reading the upload and
writing plus flushing the bytes succeeds, and the transcribe outcome.
Error strings are the messages str(e) of the raised exceptions. -/
structure Env (M S : Type) where
  loader : Nat → Except String M
  createTemp : Except String Unit
  writeContent : Except String Unit
  transcribe : Except String (TranscribeResult S)

/-- What the handler sends back: a JSONResponse (status 200) with exactly a
text and a segments entry, or an HTTPException with a status and detail. -/
inductive Response (S : Type) where
  | jsonOk (text : String) (segments : List S)
  | httpError (status : Nat) (detail : String)
  deriving DecidableEq, Repr

/-- The HTTP status of a response; JSONResponse defaults to 200. -/
def Response.statusOf {S : Type} : Response S → Nat
  | .jsonOk _ _ => 200
  | .httpError st _ => st

/-- Trace of one process_audio call: the response, the registry when it
returns, how many loader invocations happened, whether the scratch file was
created, whether it still exists on the filesystem after the return, and
how many os.unlink calls were made on it. -/
structure ProcOut (M S : Type) where
  response : Response S
  registry : Registry M
  loadCalls : Nat
  scratchCreated : Bool
  scratchExists : Bool
  unlinkCalls : Nat
  deriving DecidableEq, Repr

/-- Detail of the 400 raised when model_size is not a key of models. -/
def invalidModelDetail {M : Type} (models : Registry M) : String :=
  "Invalid model size. Supported sizes: " ++
    String.intercalate ", " (models.map (fun p => p.1))

/-- Detail of the 400 raised when no file is provided. -/
def noFileDetail : String := "No file provided"

/-- Detail of the 400 raised for a disallowed extension. -/
def unsupportedDetail : String :=
  "File type not supported. Allowed types: " ++
    String.intercalate ", " allowed_extensions

/-- Message of the AttributeError Python would raise on calling transcribe
on None; reachable only through the dead fellThrough path (the real message
quotes the names, the quotes are immaterial here). -/
def attributeErrorMsg : String :=
  "AttributeError: NoneType object has no attribute transcribe"

/-- The body of the try block from the NamedTemporaryFile statement on,
together with the except clause as it affects these steps.  On any error
raised once temp_file is in locals, the except block unlinks the scratch
file and raises a 500 with str(e); an error from NamedTemporaryFile itself
leaves temp_file unbound, so the except block does not unlink. -/
def scratchPhase {M S : Type} (env : Env M S) (registry : Registry M)
    (loadCalls : Nat) (transcribeOutcome : Except String (TranscribeResult S)) :
    ProcOut M S :=
  match env.createTemp with
  | .error e =>
    { response := .httpError 500 e, registry := registry, loadCalls := loadCalls,
      scratchCreated := false, scratchExists := false, unlinkCalls := 0 }
  | .ok _ =>
    match env.writeContent with
    | .error e =>
      { response := .httpError 500 e, registry := registry, loadCalls := loadCalls,
        scratchCreated := true, scratchExists := false, unlinkCalls := 1 }
    | .ok _ =>
      match transcribeOutcome with
      | .error e =>
        { response := .httpError 500 e, registry := registry, loadCalls := loadCalls,
          scratchCreated := true, scratchExists := false, unlinkCalls := 1 }
      | .ok r =>
        { response := .jsonOk r.text r.segments, registry := registry,
          loadCalls := loadCalls, scratchCreated := true, scratchExists := false,
          unlinkCalls := 1 }

/-- process_audio(file, model_size): the three validation checks in source
order, then the try block: get_model, the NamedTemporaryFile write, the
transcribe call, the in-line unlink and the JSONResponse; the except block
converts any exception raised inside the try into a 500 carrying str(e),
unlinking the scratch file first when temp_file is in locals. -/
def process_audio {M C S : Type} (env : Env M S) (file : Option (UploadFile C))
    (model_size : String) (models : Registry M) : ProcOut M S :=
  if dictContains models model_size = false then
    { response := .httpError 400 (invalidModelDetail models), registry := models,
      loadCalls := 0, scratchCreated := false, scratchExists := false,
      unlinkCalls := 0 }
  else
    match file with
    | none =>
      { response := .httpError 400 noFileDetail, registry := models,
        loadCalls := 0, scratchCreated := false, scratchExists := false,
        unlinkCalls := 0 }
    | some f =>
      if allowed_extensions.contains (lowerStr (splitextExt f.filename)) = false then
        { response := .httpError 400 unsupportedDetail, registry := models,
          loadCalls := 0, scratchCreated := false, scratchExists := false,
          unlinkCalls := 0 }
      else
        let g := get_model env.loader models model_size
        match g.out with
        | .keyErr =>
          { response := .httpError 500 ("KeyError: " ++ model_size),
            registry := g.registry, loadCalls := g.loadCalls,
            scratchCreated := false, scratchExists := false, unlinkCalls := 0 }
        | .raised e =>
          { response := .httpError 500 e, registry := g.registry,
            loadCalls := g.loadCalls, scratchCreated := false,
            scratchExists := false, unlinkCalls := 0 }
        | .ok _ =>
          scratchPhase env g.registry g.loadCalls env.transcribe
        | .noneModel =>
          scratchPhase env g.registry g.loadCalls (.error attributeErrorMsg)

/-- POST /transcribe/fast: process_audio with the fixed identifier base. -/
def transcribe_audio_fast {M C S : Type} (env : Env M S)
    (file : Option (UploadFile C)) (models : Registry M) : ProcOut M S :=
  process_audio env file "base" models

/-- POST /transcribe/accurate: process_audio with the fixed identifier
large. -/
def transcribe_audio_accurate {M C S : Type} (env : Env M S)
    (file : Option (UploadFile C)) (models : Registry M) : ProcOut M S :=
  process_audio env file "large" models

/-- Body of the GET / status route. -/
structure RootResponse where
  message : String
  endpoints : List (String × String)
  model_status : List (String × String)
  deriving DecidableEq, Repr

/-- The GET / handler: maps each registry entry to loaded or not loaded
according to whether its value is not None. -/
def root {M : Type} (models : Registry M) : RootResponse :=
  { message := "Audio Transcription API is running",
    endpoints :=
      [("/transcribe/fast", "Quick transcription using base model (~142MB)"),
       ("/transcribe/accurate", "High-accuracy transcription using large model (~2.9GB)")],
    model_status :=
      models.map (fun p => (p.1, if p.2.isSome then "loaded" else "not loaded")) }

/-- A loader that fails on attempts 0 and 1 and succeeds on attempt 2 with
handle 7; exercises the backoff path. -/
def loaderW : Nat → Except String Nat := fun n =>
  if n < 2 then Except.error "boom" else Except.ok 7

/-- A loader that fails on every attempt. -/
def loaderFailW : Nat → Except String Nat := fun _ => Except.error "download failed"

/-- A loader that succeeds immediately with handle 5. -/
def loaderOkW : Nat → Except String Nat := fun _ => Except.ok 5

/-- An environment in which every external effect succeeds. -/
def envOkW : Env Nat Nat :=
  { loader := loaderOkW, createTemp := Except.ok (), writeContent := Except.ok (),
    transcribe := Except.ok { text := "hello", segments := [3, 1] } }

/-- An environment in which the transcribe call raises. -/
def envTransFailW : Env Nat Nat :=
  { loader := loaderOkW, createTemp := Except.ok (), writeContent := Except.ok (),
    transcribe := Except.error "bad audio" }

/-- An upload with an allowed extension. -/
def fileMp3W : UploadFile Unit := { filename := "song.mp3", content := () }

/-- An upload with a disallowed extension. -/
def fileTxtW : UploadFile Unit := { filename := "notes.txt", content := () }

theorem loadLoop_attempts_le {M : Type} (loader : Nat → Except String M) :
    ∀ (n a : Nat), (loadLoop loader a n).attempts ≤ n
  | 0, _ => by simp [loadLoop]
  | 1, a => by
    cases h : loader a <;> simp [loadLoop, h]
  | r + 2, a => by
    cases h : loader a with
    | ok m => simp [loadLoop, h]
    | error e =>
      have ih := loadLoop_attempts_le loader (r + 1) (a + 1)
      simp only [loadLoop, h]
      omega

theorem loadLoop_attempts_pos {M : Type} (loader : Nat → Except String M)
    (n a : Nat) (hn : 0 < n) : 1 ≤ (loadLoop loader a n).attempts := by
  match n, hn with
  | 1, _ => cases h : loader a <;> simp [loadLoop, h]
  | r + 2, _ =>
    cases h : loader a with
    | ok m => simp [loadLoop, h]
    | error e => simp only [loadLoop, h]; omega

theorem loadLoop_waits_pow {M : Type} (loader : Nat → Except String M) :
    ∀ (n a : Nat), (loadLoop loader a n).waits =
      (List.range (loadLoop loader a n).waits.length).map (fun i => 2 ^ (a + i))
  | 0, _ => by simp [loadLoop]
  | 1, a => by cases h : loader a <;> simp [loadLoop, h]
  | r + 2, a => by
    cases h : loader a with
    | ok m => simp [loadLoop, h]
    | error e =>
      have ih := loadLoop_waits_pow loader (r + 1) (a + 1)
      simp only [loadLoop, h, List.length_cons]
      rw [List.range_succ_eq_map, List.map_cons, List.map_map]
      have hfun : ((fun i => 2 ^ (a + i)) ∘ Nat.succ) = fun i => 2 ^ (a + 1 + i) := by
        funext i
        simp only [Function.comp_apply]
        congr 1
        omega
      rw [hfun, ← ih]
      simp

theorem loadLoop_first_success {M : Type} (loader : Nat → Except String M) :
    ∀ (n a c : Nat) (m : M), a ≤ c → c < a + n →
      (∀ b, a ≤ b → b < c → ∃ e, loader b = Except.error e) →
      loader c = Except.ok m →
      (loadLoop loader a n).result = LoadResult.ok m ∧
      (loadLoop loader a n).attempts = c + 1 - a ∧
      (loadLoop loader a n).waits.length = c - a
  | 0, a, c, m => by omega
  | 1, a, c, m => by
    intro hac hcn _ hc
    have hca : c = a := by omega
    subst hca
    simp [loadLoop, hc]
  | r + 2, a, c, m => by
    intro hac hcn hfail hc
    rcases Nat.eq_or_lt_of_le hac with hca | hlt
    · subst hca
      simp [loadLoop, hc]
    · obtain ⟨e, he⟩ := hfail a le_rfl hlt
      have ih := loadLoop_first_success loader (r + 1) (a + 1) c m
        (by omega) (by omega) (fun b hb1 hb2 => hfail b (by omega) hb2) hc
      simp only [loadLoop, he, List.length_cons]
      refine ⟨ih.1, by omega, by rw [ih.2.2]; omega⟩

theorem loadLoop_all_fail {M : Type} (loader : Nat → Except String M) :
    ∀ (n a : Nat), 0 < n →
      (∀ b, a ≤ b → b < a + n → ∃ e, loader b = Except.error e) →
      ∃ elast, loader (a + n - 1) = Except.error elast ∧
        (loadLoop loader a n).result = LoadResult.failed elast ∧
        (loadLoop loader a n).attempts = n ∧
        (loadLoop loader a n).waits.length = n - 1
  | 0, _, h => by omega
  | 1, a, _ => by
    intro hfail
    obtain ⟨e, he⟩ := hfail a le_rfl (by omega)
    exact ⟨e, by simpa using he, by simp [loadLoop, he], by simp [loadLoop, he],
      by simp [loadLoop, he]⟩
  | r + 2, a, _ => by
    intro hfail
    obtain ⟨e0, he0⟩ := hfail a le_rfl (by omega)
    obtain ⟨elast, hel, hres, hatt, hwl⟩ :=
      loadLoop_all_fail loader (r + 1) (a + 1) (by omega)
        (fun b hb1 hb2 => hfail b (by omega) (by omega))
    refine ⟨elast, by convert hel using 2; omega, ?_, ?_, ?_⟩
    · simp only [loadLoop, he0]
      exact hres
    · simp only [loadLoop, he0]
      omega
    · simp only [loadLoop, he0, List.length_cons]
      omega

theorem dictGet_dictSet_self {M : Type} :
    ∀ (r : Registry M) (k : String) (v w : Option M),
      dictGet r k = some v → dictGet (dictSet r k w) k = some w
  | [], k, v, w => by simp [dictGet]
  | p :: t, k, v, w => by
    intro h
    by_cases hpk : p.1 == k
    · simp [dictGet, dictSet, List.find?, hpk]
    · have ht : dictGet t k = some v := by
        simpa [dictGet, List.find?, hpk] using h
      have ih := dictGet_dictSet_self t k v w ht
      simpa [dictGet, dictSet, List.find?, hpk] using ih

theorem dictSet_keys {M : Type} (r : Registry M) (k : String) (v : Option M) :
    (dictSet r k v).map Prod.fst = r.map Prod.fst := by
  unfold dictSet
  rw [List.map_map]
  apply List.map_congr_left
  intro p _
  simp only [Function.comp_apply]
  split <;> rfl

theorem invalidModelDetail_head {M : Type} (r : Registry M) :
    (invalidModelDetail r).data.head? = some 'I' := rfl

theorem noFileDetail_ne_invalid {M : Type} (r : Registry M) :
    noFileDetail ≠ invalidModelDetail r := by
  intro h
  have hh : noFileDetail.data.head? = (invalidModelDetail r).data.head? :=
    congrArg (fun s => s.data.head?) h
  rw [invalidModelDetail_head r] at hh
  exact absurd hh (by decide)

theorem unsupportedDetail_ne_invalid {M : Type} (r : Registry M) :
    unsupportedDetail ≠ invalidModelDetail r := by
  intro h
  have hh : unsupportedDetail.data.head? = (invalidModelDetail r).data.head? :=
    congrArg (fun s => s.data.head?) h
  rw [invalidModelDetail_head r] at hh
  exact absurd hh (by decide)

/-- Claim C3: load_model_with_retry makes at most max_retries attempts, a
failing 0-indexed attempt i that is not the last waits exactly 2 ^ i
seconds before the next one, and the first successful attempt has its
handle returned (so with failures on the first two attempts the waits are
1s then 2s). -/
theorem load_retry_backoff_spec {M : Type} (loader : Nat → Except String M)
    (max_retries : Nat) :
    (load_model_with_retry loader max_retries).attempts ≤ max_retries ∧
    (load_model_with_retry loader max_retries).waits =
      (List.range (load_model_with_retry loader max_retries).waits.length).map
        (fun i => 2 ^ i) ∧
    (∀ c m, c < max_retries → (∀ b, b < c → ∃ e, loader b = Except.error e) →
      loader c = Except.ok m →
      (load_model_with_retry loader max_retries).result = LoadResult.ok m ∧
      (load_model_with_retry loader max_retries).attempts = c + 1 ∧
      (load_model_with_retry loader max_retries).waits.length = c) ∧
    (0 < max_retries → (∀ b, b < max_retries → ∃ e, loader b = Except.error e) →
      (load_model_with_retry loader max_retries).attempts = max_retries ∧
      (load_model_with_retry loader max_retries).waits.length = max_retries - 1) := by
  refine ⟨loadLoop_attempts_le loader max_retries 0, ?_, ?_, ?_⟩
  · have h := loadLoop_waits_pow loader max_retries 0
    simpa using h
  · intro c m hc hfail hok
    have h := loadLoop_first_success loader max_retries 0 c m (by omega) (by omega)
      (fun b _ hb => hfail b hb) hok
    simpa using h
  · intro hpos hfail
    obtain ⟨elast, _, _, hatt, hwl⟩ := loadLoop_all_fail loader max_retries 0 hpos
      (fun b _ hb => hfail b (by omega))
    exact ⟨by simpa using hatt, by simpa using hwl⟩

theorem load_retry_backoff_spec_witness :
    (load_model_with_retry loaderW 3).result = LoadResult.ok 7 ∧
    (load_model_with_retry loaderW 3).attempts = 3 ∧
    (load_model_with_retry loaderW 3).waits = [1, 2] := by
  obtain ⟨-, hw, hfirst, -⟩ := load_retry_backoff_spec loaderW 3
  obtain ⟨hres, hatt, hlen⟩ := hfirst 2 7 (by omega)
    (fun b hb => ⟨"boom", by interval_cases b <;> rfl⟩) (by rfl)
  refine ⟨hres, hatt, ?_⟩
  rw [hw, hlen]
  rfl

/-- Claim C2: on a cold registry entry get_model performs at least one load
attempt, and after a successful load any later get_model call for the same
identifier returns the stored handle directly, with zero loader
invocations, whatever the later loader would do. -/
theorem get_model_cold_then_cached {M : Type}
    (loader loader2 : Nat → Except String M) (r : Registry M) (id : String)
    (hcold : dictGet r id = some none) :
    1 ≤ (get_model loader r id).loadCalls ∧
    ∀ m, (get_model loader r id).out = GetOut.ok m →
      get_model loader2 (get_model loader r id).registry id =
        { out := GetOut.ok m, registry := (get_model loader r id).registry,
          loadCalls := 0 } := by
  have hpos : 1 ≤ (load_model_with_retry loader 3).attempts :=
    loadLoop_attempts_pos loader 3 0 (by omega)
  simp only [get_model, hcold]
  cases hres : (load_model_with_retry loader 3).result with
  | ok m =>
    refine ⟨hpos, ?_⟩
    intro m2 hm2
    simp only [GetOut.ok.injEq] at hm2
    subst hm2
    have hget := dictGet_dictSet_self r id none (some m) hcold
    simp only [get_model, hget]
  | failed e =>
    refine ⟨hpos, ?_⟩
    intro m2 hm2
    simp at hm2
  | fellThrough =>
    refine ⟨hpos, ?_⟩
    intro m2 hm2
    simp at hm2

theorem get_model_cold_then_cached_witness :
    1 ≤ (get_model loaderOkW (models_init Nat) "base").loadCalls ∧
    get_model loaderFailW (get_model loaderOkW (models_init Nat) "base").registry
        "base" =
      { out := GetOut.ok 5,
        registry := (get_model loaderOkW (models_init Nat) "base").registry,
        loadCalls := 0 } := by
  obtain ⟨h1, h2⟩ := get_model_cold_then_cached loaderOkW loaderFailW
    (models_init Nat) "base" (by rfl)
  exact ⟨h1, h2 5 (by rfl)⟩

/-- Claim C4: when all three load attempts fail, get_model propagates the
last error, the registry is unchanged with the entry still unset, and a
later call for the identifier behaves exactly as a cold call does. -/
theorem get_model_all_attempts_fail {M : Type} (loader : Nat → Except String M)
    (r : Registry M) (id : String)
    (hcold : dictGet r id = some none)
    (hfail : ∀ b, b < 3 → ∃ e, loader b = Except.error e) :
    ∃ e, loader 2 = Except.error e ∧
      (get_model loader r id).out = GetOut.raised e ∧
      (get_model loader r id).registry = r ∧
      dictGet (get_model loader r id).registry id = some none ∧
      ∀ loader2 : Nat → Except String M,
        get_model loader2 (get_model loader r id).registry id =
          get_model loader2 r id := by
  obtain ⟨elast, hel, hres, -, -⟩ := loadLoop_all_fail loader 3 0 (by omega)
    (fun b _ hb => hfail b (by omega))
  have hget : get_model loader r id =
      { out := GetOut.raised elast, registry := r,
        loadCalls := (load_model_with_retry loader 3).attempts } := by
    simp only [get_model, hcold, load_model_with_retry]
    rw [hres]
  refine ⟨elast, by simpa using hel, ?_, ?_, ?_, ?_⟩
  · rw [hget]
  · rw [hget]
  · rw [hget]
    exact hcold
  · intro loader2
    rw [hget]

theorem get_model_all_attempts_fail_witness :
    (get_model loaderFailW (models_init Nat) "base").out =
      GetOut.raised "download failed" ∧
    (get_model loaderFailW (models_init Nat) "base").registry =
      models_init Nat := by
  obtain ⟨e, he, hout, hreg, -, -⟩ := get_model_all_attempts_fail loaderFailW
    (models_init Nat) "base" (by rfl)
    (fun b _ => ⟨"download failed", rfl⟩)
  have he2 : e = "download failed" := by
    simpa [loaderFailW] using he.symm
  subst he2
  exact ⟨hout, hreg⟩

theorem scratchPhase_clean {M S : Type} (env : Env M S) (reg : Registry M)
    (lc : Nat) (t : Except String (TranscribeResult S)) :
    (scratchPhase env reg lc t).scratchExists = false ∧
    (scratchPhase env reg lc t).unlinkCalls =
      (if (scratchPhase env reg lc t).scratchCreated = true then 1 else 0) := by
  unfold scratchPhase
  split
  · simp
  · split
    · simp
    · split
      · simp
      · simp

theorem process_audio_scratch_clean {M C S : Type} (env : Env M S)
    (file : Option (UploadFile C)) (model_size : String) (models : Registry M) :
    (process_audio env file model_size models).scratchExists = false ∧
    (process_audio env file model_size models).unlinkCalls =
      (if (process_audio env file model_size models).scratchCreated = true
        then 1 else 0) := by
  unfold process_audio
  split
  · simp
  · split
    · simp
    · split
      · simp
      · cases hg : (get_model env.loader models model_size).out <;>
          simp only [hg] <;>
          first | exact scratchPhase_clean _ _ _ _ | simp

/-- Claim C1: whenever the scratch file was created during a process_audio
call, it no longer exists on the filesystem when the call returns, on every
exit path: successful transcription, a transcribe error, or any other error
raised after the file was created. -/
theorem scratch_file_never_leaks {M C S : Type} (env : Env M S)
    (file : Option (UploadFile C)) (model_size : String) (models : Registry M)
    (_hcreated : (process_audio env file model_size models).scratchCreated = true) :
    (process_audio env file model_size models).scratchExists = false :=
  (process_audio_scratch_clean env file model_size models).1

theorem scratch_file_never_leaks_witness :
    (process_audio envOkW (some fileMp3W) "base" (models_init Nat)).scratchCreated
      = true ∧
    (process_audio envOkW (some fileMp3W) "base" (models_init Nat)).scratchExists
      = false :=
  ⟨rfl,
    scratch_file_never_leaks envOkW (some fileMp3W) "base" (models_init Nat) rfl⟩

/-- Claim C6: the unlink of the scratch file happens exactly once in every
run that created the scratch file, and is never attempted in a run that did
not create it. -/
theorem unlink_exactly_once_iff_created {M C S : Type} (env : Env M S)
    (file : Option (UploadFile C)) (model_size : String) (models : Registry M) :
    (process_audio env file model_size models).unlinkCalls =
      (if (process_audio env file model_size models).scratchCreated = true
        then 1 else 0) :=
  (process_audio_scratch_clean env file model_size models).2

/-- Claim C5: an upload whose lower-cased splitext extension is not in the
allow-list is rejected with the 400 unsupported-type error, with no loader
invocation, no scratch file, and the registry unchanged. -/
theorem unsupported_extension_rejected {M C S : Type} (env : Env M S)
    (f : UploadFile C) (model_size : String) (models : Registry M)
    (hvalid : dictContains models model_size = true)
    (hext : allowed_extensions.contains (lowerStr (splitextExt f.filename))
      = false) :
    process_audio env (some f) model_size models =
      { response := Response.httpError 400 unsupportedDetail, registry := models,
        loadCalls := 0, scratchCreated := false, scratchExists := false,
        unlinkCalls := 0 } := by
  simp only [process_audio, hvalid, hext]
  simp

theorem unsupported_extension_rejected_witness :
    process_audio envOkW (some fileTxtW) "base" (models_init Nat) =
      { response := Response.httpError 400 unsupportedDetail,
        registry := models_init Nat, loadCalls := 0, scratchCreated := false,
        scratchExists := false, unlinkCalls := 0 } :=
  unsupported_extension_rejected envOkW fileTxtW "base" (models_init Nat)
    rfl rfl

/-- Claim C7: once validation has passed, an error raised during model
acquisition, scratch-file persistence (creation or write), or the
transcribe call surfaces as a 500 whose detail is the underlying message;
and conversely a 500 can only arise on requests that passed validation, so
validation failures are never converted to 500. -/
theorem post_validation_errors_500 {M C S : Type} (env : Env M S)
    (f : UploadFile C) (model_size : String) (models : Registry M)
    (hvalid : dictContains models model_size = true)
    (hext : allowed_extensions.contains (lowerStr (splitextExt f.filename))
      = true) :
    (∀ e, (get_model env.loader models model_size).out = GetOut.raised e →
      (process_audio env (some f) model_size models).response =
        Response.httpError 500 e) ∧
    (∀ m e, (get_model env.loader models model_size).out = GetOut.ok m →
      env.createTemp = Except.error e →
      (process_audio env (some f) model_size models).response =
        Response.httpError 500 e) ∧
    (∀ m e, (get_model env.loader models model_size).out = GetOut.ok m →
      env.createTemp = Except.ok () → env.writeContent = Except.error e →
      (process_audio env (some f) model_size models).response =
        Response.httpError 500 e) ∧
    (∀ m e, (get_model env.loader models model_size).out = GetOut.ok m →
      env.createTemp = Except.ok () → env.writeContent = Except.ok () →
      env.transcribe = Except.error e →
      (process_audio env (some f) model_size models).response =
        Response.httpError 500 e) ∧
    (∀ (env2 : Env M S) (file2 : Option (UploadFile C)) (ms2 : String)
      (r2 : Registry M),
      (process_audio env2 file2 ms2 r2).response.statusOf = 500 →
      dictContains r2 ms2 = true ∧
      ∃ f2, file2 = some f2 ∧
        allowed_extensions.contains (lowerStr (splitextExt f2.filename)) = true) := by
  refine ⟨?_, ?_, ?_, ?_, ?_⟩
  · intro e he
    simp only [process_audio, hvalid, hext, he]
    simp
  · intro m e hm hct
    simp only [process_audio, hvalid, hext, hm, scratchPhase, hct]
    simp
  · intro m e hm hct hwc
    simp only [process_audio, hvalid, hext, hm, scratchPhase, hct, hwc]
    simp
  · intro m e hm hct hwc htr
    simp only [process_audio, hvalid, hext, hm, scratchPhase, hct, hwc, htr]
    simp
  · intro env2 file2 ms2 r2 h
    cases hdc : dictContains r2 ms2 with
    | false =>
      simp only [process_audio, hdc] at h
      simp [Response.statusOf] at h
    | true =>
      cases file2 with
      | none =>
        simp only [process_audio, hdc] at h
        simp [Response.statusOf] at h
      | some f2 =>
        cases hext2 : allowed_extensions.contains (lowerStr (splitextExt f2.filename)) with
        | false =>
          simp only [process_audio, hdc, hext2] at h
          simp [Response.statusOf] at h
        | true =>
          exact ⟨rfl, f2, rfl, hext2⟩

theorem post_validation_errors_500_witness :
    (process_audio envTransFailW (some fileMp3W) "base" (models_init Nat)).response
      = Response.httpError 500 "bad audio" := by
  obtain ⟨-, -, -, h4, -⟩ := post_validation_errors_500 envTransFailW fileMp3W
    "base" (models_init Nat) rfl rfl
  exact h4 5 "bad audio" rfl rfl rfl rfl

/-- Claim C8: when the transcribe call succeeds, the response is the 200
JSON body whose text and segments are exactly the text and segments the
model produced, unchanged. -/
theorem success_returns_model_output {M C S : Type} (env : Env M S)
    (f : UploadFile C) (model_size : String) (models : Registry M)
    (res : TranscribeResult S)
    (hvalid : dictContains models model_size = true)
    (hext : allowed_extensions.contains (lowerStr (splitextExt f.filename))
      = true)
    (hm : ∃ m, (get_model env.loader models model_size).out = GetOut.ok m)
    (hct : env.createTemp = Except.ok ())
    (hwc : env.writeContent = Except.ok ())
    (htr : env.transcribe = Except.ok res) :
    (process_audio env (some f) model_size models).response =
      Response.jsonOk res.text res.segments ∧
    ((process_audio env (some f) model_size models).response).statusOf = 200 := by
  obtain ⟨m, hm⟩ := hm
  have h1 : (process_audio env (some f) model_size models).response =
      Response.jsonOk res.text res.segments := by
    simp only [process_audio, hvalid, hext, hm, scratchPhase, hct, hwc, htr]
    simp
  exact ⟨h1, by rw [h1]; rfl⟩

theorem success_returns_model_output_witness :
    (process_audio envOkW (some fileMp3W) "base" (models_init Nat)).response =
      Response.jsonOk "hello" [3, 1] := by
  obtain ⟨h1, -⟩ := success_returns_model_output envOkW fileMp3W "base"
    (models_init Nat) { text := "hello", segments := [3, 1] }
    rfl rfl ⟨5, rfl⟩ rfl rfl rfl
  exact h1

/-- Claim C9: the status route reports a status for exactly the registry
identifiers, loaded for an entry holding a handle and not loaded for an
unset entry. -/
theorem status_route_mapping {M : Type} (r : Registry M) :
    ((root r).model_status.map Prod.fst = r.map Prod.fst) ∧
    (∀ name (m : M), (name, some m) ∈ r →
      (name, "loaded") ∈ (root r).model_status) ∧
    (∀ name, (name, (none : Option M)) ∈ r →
      (name, "not loaded") ∈ (root r).model_status) := by
  refine ⟨?_, ?_, ?_⟩
  · simp only [root]
    rw [List.map_map]
    apply List.map_congr_left
    intro p _
    rfl
  · intro name m hmem
    have h := List.mem_map_of_mem
      (fun p : String × Option M =>
        (p.1, if p.2.isSome then "loaded" else "not loaded")) hmem
    simpa [root] using h
  · intro name hmem
    have h := List.mem_map_of_mem
      (fun p : String × Option M =>
        (p.1, if p.2.isSome then "loaded" else "not loaded")) hmem
    simpa [root] using h

theorem status_route_mapping_witness :
    ("large", "loaded") ∈
      (root [("base", (none : Option Nat)), ("large", some 5)]).model_status ∧
    ("base", "not loaded") ∈
      (root [("base", (none : Option Nat)), ("large", some 5)]).model_status := by
  obtain ⟨-, h2, h3⟩ :=
    status_route_mapping [("base", (none : Option Nat)), ("large", some 5)]
  exact ⟨h2 "large" 5 (by simp), h3 "base" (by simp)⟩

theorem scratchPhase_registry {M S : Type} (env : Env M S) (reg : Registry M)
    (lc : Nat) (t : Except String (TranscribeResult S)) :
    (scratchPhase env reg lc t).registry = reg := by
  unfold scratchPhase
  split
  · rfl
  · split
    · rfl
    · split <;> rfl

theorem scratchPhase_response_not_400 {M S : Type} (env : Env M S)
    (reg : Registry M) (lc : Nat) (t : Except String (TranscribeResult S))
    (d : String) :
    (scratchPhase env reg lc t).response ≠ Response.httpError 400 d := by
  unfold scratchPhase
  split
  · simp
  · split
    · simp
    · split <;> simp

theorem get_model_keys {M : Type} (loader : Nat → Except String M)
    (r : Registry M) (id : String) :
    ((get_model loader r id).registry).map Prod.fst = r.map Prod.fst := by
  unfold get_model
  cases hdg : dictGet r id with
  | none => simp only [hdg]
  | some o =>
    cases o with
    | some m => simp only [hdg]
    | none =>
      simp only [hdg]
      cases hres : (load_model_with_retry loader 3).result <;>
        simp only [hres] <;>
        first | exact dictSet_keys _ _ _ | rfl

theorem process_audio_keys {M C S : Type} (env : Env M S)
    (file : Option (UploadFile C)) (ms : String) (r : Registry M) :
    ((process_audio env file ms r).registry).map Prod.fst = r.map Prod.fst := by
  unfold process_audio
  split
  · rfl
  · split
    · rfl
    · split
      · rfl
      · cases hg : (get_model env.loader r ms).out <;>
          simp only [hg] <;>
          first
            | exact get_model_keys _ _ _
            | (rw [scratchPhase_registry]; exact get_model_keys _ _ _)

theorem process_audio_ne_invalid {M C S : Type} (env : Env M S)
    (file : Option (UploadFile C)) (ms : String) (r : Registry M)
    (h : dictContains r ms = true) :
    (process_audio env file ms r).response ≠
      Response.httpError 400 (invalidModelDetail r) := by
  unfold process_audio
  simp only [h]
  have hni : ¬ ((true : Bool) = false) := by simp
  rw [if_neg hni]
  split
  · intro heq
    simp only [Response.httpError.injEq] at heq
    exact noFileDetail_ne_invalid r heq.2
  · split
    · intro heq
      simp only [Response.httpError.injEq] at heq
      exact unsupportedDetail_ne_invalid r heq.2
    · cases hg : (get_model env.loader r ms).out <;>
        simp only [hg] <;>
        first | exact scratchPhase_response_not_400 _ _ _ _ _ | simp

/-- Claim C10: the identifiers passed by the two POST routes, base and
large, are keys of the initial registry, remain keys across every
process_audio call, and under that invariant the invalid-model 400 branch
of process_audio can never be the response of either route. -/
theorem invalid_model_branch_unreachable {M C S : Type} (env : Env M S)
    (file : Option (UploadFile C)) (r : Registry M)
    (hb : dictContains r "base" = true)
    (hl : dictContains r "large" = true) :
    (dictContains (models_init M) "base" = true ∧
      dictContains (models_init M) "large" = true) ∧
    (∀ (env2 : Env M S) (file2 : Option (UploadFile C)) (ms2 : String),
      ((process_audio env2 file2 ms2 r).registry).map Prod.fst =
        r.map Prod.fst) ∧
    (transcribe_audio_fast env file r).response ≠
      Response.httpError 400 (invalidModelDetail r) ∧
    (transcribe_audio_accurate env file r).response ≠
      Response.httpError 400 (invalidModelDetail r) := by
  refine ⟨⟨rfl, rfl⟩, ?_, ?_, ?_⟩
  · intro env2 file2 ms2
    exact process_audio_keys env2 file2 ms2 r
  · exact process_audio_ne_invalid env file "base" r hb
  · exact process_audio_ne_invalid env file "large" r hl

theorem invalid_model_branch_unreachable_witness :
    (transcribe_audio_fast envOkW (some fileMp3W) (models_init Nat)).response ≠
      Response.httpError 400 (invalidModelDetail (models_init Nat)) := by
  obtain ⟨-, -, h3, -⟩ := invalid_model_branch_unreachable envOkW
    (some fileMp3W) (models_init Nat) rfl rfl
  exact h3
